import Mathlib

/-!
Verification of the application client-secret revocation workflow.

The development shallowly embeds the revocation feature of the repository:

* `useRevokeApplication` (the mutation hook): `generateClientSecret`,
  `toUpdateRequest`, the inline secret-injection block, the mutation
  function proper, and its `onSuccess` cache-invalidation handler;
* `ApplicationRevokeDialog` (confirmation dialog) as a state machine;
* `ClientSecretSuccessDialog` together with the piece of
  `EditGeneralSettings` that owns the stored secret, as a state machine;
* a heap-based rendering of `toUpdateRequest` plus the injection block
  that makes the JavaScript object-reference semantics explicit.

Network, randomness and the cache are modelled as oracles passed in
explicitly; dispatched requests and invalidation calls are logged so that
theorems can speak about what was (and was not) sent.
-/

/-- The nested OAuth2 configuration block of an inbound auth config.
`extraConfig` stands for the remaining protocol-specific fields, which the
revocation code never touches. -/
structure OAuth2Config where
  client_id : String
  client_secret : String
  extraConfig : List (String × String)
deriving DecidableEq

/-- One inbound authentication config: a `type` discriminator (e.g. "oauth2")
and its nested config block. -/
structure InboundAuthConfig where
  type : String
  config : OAuth2Config
deriving DecidableEq

/-- The application record returned by `GET /applications/{id}`.
`id`, `created_at`, `updated_at` are the server-generated fields; `extra`
stands for any further keys of the record beyond the named ones. -/
structure Application where
  id : String
  created_at : String
  updated_at : String
  name : String
  description : String
  inbound_auth_config : Option (List InboundAuthConfig)
  extra : List (String × String)
deriving DecidableEq

/-- The update payload (`CreateApplicationRequest`): the application record
with the server-generated fields stripped. -/
structure CreateApplicationRequest where
  name : String
  description : String
  inbound_auth_config : Option (List InboundAuthConfig)
  extra : List (String × String)
deriving DecidableEq

/-- `toUpdateRequest`: destructures the record, dropping `id`, `created_at`
and `updated_at`, and keeps every other field
(`const {id, created_at, updated_at, ...rest} = application; return rest`). -/
def toUpdateRequest (application : Application) : CreateApplicationRequest :=
  { name := application.name
    description := application.description
    inbound_auth_config := application.inbound_auth_config
    extra := application.extra }

/-- A field of a record, for stating key-level properties of
`toUpdateRequest`: either a plain string field or the inbound-auth list. -/
inductive FieldValue where
  | str : String → FieldValue
  | configs : Option (List InboundAuthConfig) → FieldValue
deriving DecidableEq

/-- The key/value view of an application record, as the JavaScript object it
embeds: the named keys followed by the extra keys. -/
def Application.toFields (a : Application) : List (String × FieldValue) :=
  [("id", .str a.id), ("created_at", .str a.created_at),
   ("updated_at", .str a.updated_at), ("name", .str a.name),
   ("description", .str a.description),
   ("inbound_auth_config", .configs a.inbound_auth_config)]
  ++ a.extra.map (fun kv => (kv.1, FieldValue.str kv.2))

/-- The key/value view of an update request. -/
def CreateApplicationRequest.toFields (r : CreateApplicationRequest) :
    List (String × FieldValue) :=
  [("name", .str r.name), ("description", .str r.description),
   ("inbound_auth_config", .configs r.inbound_auth_config)]
  ++ r.extra.map (fun kv => (kv.1, FieldValue.str kv.2))

/-- The server-generated keys stripped by `toUpdateRequest`. -/
def serverGeneratedKeys : List String := ["id", "created_at", "updated_at"]

/-- Well-formedness of an application record as a JavaScript object: the
extra keys do not collide with the named keys. -/
def Application.wf (a : Application) : Prop :=
  ∀ kv ∈ a.extra,
    kv.1 ∉ ["id", "created_at", "updated_at", "name", "description",
            "inbound_auth_config"]

/-- Overwriting the `client_secret` of one inbound auth config, leaving its
other fields alone (`oauth2Config.config.client_secret = newClientSecret`). -/
def overwriteSecret (c : InboundAuthConfig) (s : String) : InboundAuthConfig :=
  { c with config := { c.config with client_secret := s } }

/-- Number of entries whose discriminator is "oauth2". -/
def countOAuth2 (cfgs : List InboundAuthConfig) : Nat :=
  cfgs.countP (fun c => c.type == "oauth2")

/-- Pure rendering of the in-place update performed through
`inboundAuthConfig.find(c => c.type === 'oauth2')`: the first entry with
discriminator "oauth2" gets its `client_secret` overwritten. -/
def setSecretFirst (s : String) : List InboundAuthConfig → List InboundAuthConfig
  | [] => []
  | c :: cs =>
    if c.type = "oauth2" then overwriteSecret c s :: cs
    else c :: setSecretFirst s cs

/-- The inline secret-injection block of the mutation function: if the
inbound-auth list is present and non-empty, find the "oauth2" entry and
overwrite its `client_secret`; otherwise leave the request as it is. -/
def injectSecret (req : CreateApplicationRequest) (s : String) :
    CreateApplicationRequest :=
  match req.inbound_auth_config with
  | none => req
  | some cfgs =>
    if 0 < cfgs.length then
      { req with inbound_auth_config := some (setSecretFirst s cfgs) }
    else req

/-- The alphabet of `generateClientSecret`:
`'ABCDEFGHIJKLMNOPQRSTUVWXYZabcdefghijklmnopqrstuvwxyz0123456789'`. -/
def charsList : List Char :=
  "ABCDEFGHIJKLMNOPQRSTUVWXYZabcdefghijklmnopqrstuvwxyz0123456789".toList

/-- `generateClientSecret`: 32 characters, each picked by
`chars.charAt(Math.floor(Math.random() * chars.length))`.  The randomness
source is the explicit oracle `rand`; `Math.floor(Math.random() * 62)` always
lands in `[0, 61]`, hence `Fin 62`. -/
def generateClientSecret (rand : Nat → Fin 62) : String :=
  String.mk ((List.range 32).map (fun i => charsList.getD (rand i).val 'A'))

/-- HTTP methods used by the workflow. -/
inductive HttpMethod where
  | GET
  | PUT
deriving DecidableEq

/-- A request handed to `http.request`, as logged by the model: method,
URL, and the JSON body (present only for the PUT). -/
structure DispatchedRequest where
  method : HttpMethod
  url : String
  body : Option CreateApplicationRequest
deriving DecidableEq

/-- `RevokeApplicationResult`: the updated application together with the new
client secret. -/
structure RevokeApplicationResult where
  application : Application
  clientSecret : String
deriving DecidableEq

/-- The behaviour of the `http` collaborator for one workflow run: the
outcome of the GET, and the outcome of the PUT as a function of its body. -/
structure HttpOracle where
  getResult : Except String Application
  putResult : CreateApplicationRequest → Except String Application

/-- The `mutationFn` of `useRevokeApplication`: fetch the current record,
generate a new secret, build the update request and inject the secret,
PUT it back, and return the server record paired with the generated secret.
The second component logs every request dispatched, in order.  A failing
await rethrows, so an error outcome carries the raw error value. -/
def mutationFn (http : HttpOracle) (rand : Nat → Fin 62)
    (serverUrl applicationId : String) :
    Except String RevokeApplicationResult × List DispatchedRequest :=
  let url := serverUrl ++ "/applications/" ++ applicationId
  match http.getResult with
  | .error e => (.error e, [⟨.GET, url, none⟩])
  | .ok currentApplication =>
    let newClientSecret := generateClientSecret rand
    let updateRequest := injectSecret (toUpdateRequest currentApplication) newClientSecret
    match http.putResult updateRequest with
    | .error e => (.error e, [⟨.GET, url, none⟩, ⟨.PUT, url, some updateRequest⟩])
    | .ok updated =>
      (.ok ⟨updated, newClientSecret⟩,
       [⟨.GET, url, none⟩, ⟨.PUT, url, some updateRequest⟩])

/-- Modelled from the spec: the constants `ApplicationQueryKeys.APPLICATION`
and `ApplicationQueryKeys.APPLICATIONS` are imported from
`../constants/application-query-keys`, a file not among the provided
sources; the spec names the two cache keys `("application", id)` and
`("applications")`. -/
def queryKeyApplication : String := "application"

/-- Modelled from the spec: the collection cache key, see
`queryKeyApplication`. -/
def queryKeyApplications : String := "applications"

/-- The whole mutation including the `onSuccess` handler.  `cache` is the
query client's invalidation facility; each `invalidateQueries(...).catch(...)`
call discards the outcome of `cache`, so a cache failure goes nowhere.  The
third component logs the invalidation calls issued, in order. -/
def runRevoke (http : HttpOracle) (cache : List String → Except String Unit)
    (rand : Nat → Fin 62) (serverUrl applicationId : String) :
    Except String RevokeApplicationResult × List DispatchedRequest
      × List (List String) :=
  match mutationFn http rand serverUrl applicationId with
  | (.ok r, reqs) =>
    let _ := cache [queryKeyApplication, applicationId]
    let _ := cache [queryKeyApplications]
    (.ok r, reqs, [[queryKeyApplication, applicationId], [queryKeyApplications]])
  | (.error e, reqs) => (.error e, reqs, [])

/-- The first "oauth2" entry's `client_secret` of an inbound-auth list,
if any (`find(c => c.type === 'oauth2')` followed by the secret read). -/
def listFirstOAuth2Secret (cfgs : List InboundAuthConfig) : Option String :=
  (cfgs.find? (fun c => c.type == "oauth2")).map (fun c => c.config.client_secret)

/-- The first "oauth2" entry's `client_secret` of an update request, if any. -/
def firstOAuth2Secret (req : CreateApplicationRequest) : Option String :=
  match req.inbound_auth_config with
  | none => none
  | some cfgs => listFirstOAuth2Secret cfgs

/-- State of `ApplicationRevokeDialog` together with the `open` prop its
parent controls.  `isOpen` is the `open` prop (the parent flips it via
`onClose`/`handleRevokeClick`); `error` and `isRevoking` are the dialog's
`useState` cells, which persist while the dialog stays mounted; `pending`
records that a `handleConfirm` invocation is awaiting its mock API call.
`emittedSuccess`/`emittedErrors` log the `onSuccess`/`onError` callbacks. -/
structure RevokeDialogState where
  isOpen : Bool
  isRevoking : Bool
  error : Option String
  pending : Bool
  emittedSuccess : List String
  emittedErrors : List String
deriving DecidableEq

/-- Events of the confirmation dialog.  `openDialog` is the parent setting
`open` to true; `cancel` is `handleCancel`, reachable from the Cancel button
(enabled only when not revoking) or from the dialog dismiss gesture
(backdrop click / Escape, which is never disabled); `confirm` is a click on
the Revoke button; `complete success payload` is the awaited mock call
settling, with `payload` the new secret on success and the error message on
failure. -/
inductive RevokeDialogEvent where
  | openDialog
  | cancel
  | confirm
  | complete (success : Bool) (payload : String)
deriving DecidableEq

/-- One step of the confirmation dialog.  `applicationId` is the prop: a
`none` id makes `handleConfirm` return at once.  The Revoke button is
disabled while `isRevoking`, so `confirm` is a no-op then; both cancel
paths run `handleCancel`, which clears the error and closes.  Completion
runs the rest of `handleConfirm` whether or not the dialog is still open:
success clears the spinner, closes and emits the secret; failure stores the
message, clears the spinner and emits the error. -/
def revokeStep (applicationId : Option String) (s : RevokeDialogState) :
    RevokeDialogEvent → RevokeDialogState
  | .openDialog => { s with isOpen := true }
  | .cancel =>
    if s.isOpen then { s with error := none, isOpen := false } else s
  | .confirm =>
    if s.isOpen ∧ ¬s.isRevoking then
      match applicationId with
      | none => s
      | some _ => { s with isRevoking := true, error := none, pending := true }
    else s
  | .complete success payload =>
    if s.pending then
      if success then
        { s with isRevoking := false, isOpen := false, pending := false,
                 emittedSuccess := s.emittedSuccess ++ [payload] }
      else
        { s with error := some payload, isRevoking := false, pending := false,
                 emittedErrors := s.emittedErrors ++ [payload] }
    else s

/-- Folding a list of events through `revokeStep`. -/
def revokeRun (applicationId : Option String) (s : RevokeDialogState) :
    List RevokeDialogEvent → RevokeDialogState
  | [] => s
  | e :: es => revokeRun applicationId (revokeStep applicationId s e) es

/-- The initial state of the confirmation dialog: closed, idle, no error. -/
def revokeInit : RevokeDialogState :=
  { isOpen := false, isRevoking := false, error := none, pending := false,
    emittedSuccess := [], emittedErrors := [] }

/-- Whether an event is a workflow failure completing. -/
def RevokeDialogEvent.isFailureCompletion : RevokeDialogEvent → Bool
  | .complete false _ => true
  | _ => false

/-- State of `ClientSecretSuccessDialog` together with the slice of
`EditGeneralSettings` that owns it: `isOpen` is `secretDialogOpen`,
`storedSecret` is `newClientSecret` (fed to the dialog as its
`clientSecret` prop), `copied` and `showSecret` are the dialog's own
`useState` cells. -/
structure SecretDialogState where
  isOpen : Bool
  copied : Bool
  showSecret : Bool
  storedSecret : String
deriving DecidableEq

/-- Events of the secret disclosure dialog.  `close` is `handleClose`
(Done button or dialog dismiss), whose `onClose` is the parent's
`handleSecretDialogClose`; `reopen secret` is the parent's
`handleRevokeSuccess`, storing a fresh secret and opening the dialog;
`copyOk`/`copyFail` are the clipboard write settling; `copyTimeout` is the
2-second timer reverting the copied flag. -/
inductive SecretDialogEvent where
  | toggleVisibility
  | copyOk
  | copyFail
  | copyTimeout
  | close
  | reopen (secret : String)
deriving DecidableEq

/-- One step of the secret disclosure dialog.  `handleClose` resets
`copied` and `showSecret` and calls `onClose`, which closes the dialog and
discards the stored secret (`setNewClientSecret('')`).  A failed clipboard
write changes nothing. -/
def secretStep (s : SecretDialogState) : SecretDialogEvent → SecretDialogState
  | .toggleVisibility =>
    if s.isOpen then { s with showSecret := !s.showSecret } else s
  | .copyOk => if s.isOpen then { s with copied := true } else s
  | .copyFail => s
  | .copyTimeout => { s with copied := false }
  | .close =>
    if s.isOpen then
      { s with copied := false, showSecret := false, isOpen := false,
               storedSecret := "" }
    else s
  | .reopen secret => { s with storedSecret := secret, isOpen := true }

/-- A heap of OAuth2 config objects, making JavaScript reference semantics
explicit: positions are object identities. -/
abbrev ConfigHeap := List OAuth2Config

/-- An inbound auth config whose nested config block is a reference into a
`ConfigHeap`. -/
structure HInboundAuthConfig where
  type : String
  configRef : Nat
deriving DecidableEq

/-- An application record in the heap model: the inbound-auth entries hold
references to their config objects. -/
structure HApplication where
  id : String
  created_at : String
  updated_at : String
  name : String
  description : String
  inbound_auth_config : Option (List HInboundAuthConfig)
  extra : List (String × String)
deriving DecidableEq

/-- An update request in the heap model. -/
structure HCreateApplicationRequest where
  name : String
  description : String
  inbound_auth_config : Option (List HInboundAuthConfig)
  extra : List (String × String)
deriving DecidableEq

/-- `toUpdateRequest` in the heap model: spread syntax copies the top-level
record only, so the update request holds the very same references as the
fetched record. -/
def toUpdateRequestH (application : HApplication) : HCreateApplicationRequest :=
  { name := application.name
    description := application.description
    inbound_auth_config := application.inbound_auth_config
    extra := application.extra }

/-- The secret-injection block in the heap model:
`oauth2Config.config.client_secret = newClientSecret` writes through the
found entry's reference, updating the heap cell in place. -/
def injectSecretH (heap : ConfigHeap) (req : HCreateApplicationRequest)
    (s : String) : ConfigHeap :=
  match req.inbound_auth_config with
  | none => heap
  | some cfgs =>
    if 0 < cfgs.length then
      match cfgs.find? (fun c => c.type == "oauth2") with
      | none => heap
      | some c =>
        match heap.get? c.configRef with
        | none => heap
        | some cfg => heap.set c.configRef { cfg with client_secret := s }
    else heap

theorem setSecretFirst_of_countOAuth2_zero (s : String)
    (cfgs : List InboundAuthConfig) (h : countOAuth2 cfgs = 0) :
    setSecretFirst s cfgs = cfgs := by
  induction cfgs with
  | nil => rfl
  | cons c cs ih =>
    rw [countOAuth2, List.countP_cons] at h
    by_cases hc : c.type = "oauth2"
    · exfalso
      simp [hc] at h
    · rw [setSecretFirst, if_neg hc,
        ih (by simpa [countOAuth2, hc] using h)]

theorem setSecretFirst_of_countOAuth2_one (s : String)
    (cfgs : List InboundAuthConfig) (i : Nat) (hi : i < cfgs.length)
    (ht : cfgs[i].type = "oauth2") (h1 : countOAuth2 cfgs = 1) :
    setSecretFirst s cfgs = cfgs.set i (overwriteSecret cfgs[i] s) := by
  induction cfgs generalizing i with
  | nil => exact absurd hi (by simp)
  | cons c cs ih =>
    rw [countOAuth2, List.countP_cons] at h1
    by_cases hc : c.type = "oauth2"
    · have hcs : countOAuth2 cs = 0 := by
        rw [countOAuth2, List.countP_eq_zero]
        simp only [hc] at h1
        simp at h1
        intro a ha
        simpa using h1 a ha
      cases i with
      | zero => simp [setSecretFirst, hc]
      | succ j =>
        exfalso
        have hj : j < cs.length := Nat.lt_of_succ_lt_succ (by simpa using hi)
        have ht' : cs[j].type = "oauth2" := by simpa using ht
        rw [countOAuth2, List.countP_eq_zero] at hcs
        exact hcs _ (List.getElem_mem hj) (by simp [ht'])
    · cases i with
      | zero => exact absurd (by simpa using ht) hc
      | succ j =>
        have hj : j < cs.length := Nat.lt_of_succ_lt_succ (by simpa using hi)
        have ht' : cs[j].type = "oauth2" := by simpa using ht
        have h1' : countOAuth2 cs = 1 := by
          rw [countOAuth2]
          simpa [hc] using h1
        simp only [setSecretFirst, if_neg hc, List.set, List.getElem_cons_succ]
        rw [ih j hj ht' h1']

theorem listFirstOAuth2Secret_setSecretFirst (s : String)
    (cfgs : List InboundAuthConfig) (h : countOAuth2 cfgs ≠ 0) :
    listFirstOAuth2Secret (setSecretFirst s cfgs) = some s := by
  induction cfgs with
  | nil => simp [countOAuth2] at h
  | cons c cs ih =>
    by_cases hc : c.type = "oauth2"
    · rw [setSecretFirst, if_pos hc, listFirstOAuth2Secret,
        List.find?_cons_of_pos _ (by simp [overwriteSecret, hc])]
      simp [overwriteSecret]
    · rw [setSecretFirst, if_neg hc, listFirstOAuth2Secret,
        List.find?_cons_of_neg _ (by simp [hc])]
      have h' : countOAuth2 cs ≠ 0 := by
        rw [countOAuth2, List.countP_cons] at h
        simpa [countOAuth2, hc] using h
      simpa [listFirstOAuth2Secret] using ih h'

/-- C4: for every update request whose inbound-auth list contains exactly one
entry with discriminator "oauth2", `injectSecret` overwrites that entry's
`client_secret` (via `overwriteSecret`, which changes nothing else of the
entry) and leaves every other entry (`List.set` at that one index) and every
other field of the request (the `with` update) identical; and for every
request with no "oauth2" entry — absent field or a list holding none — the
request comes back unchanged (total function, so no error is thrown). -/
theorem injectSecret_correct (req : CreateApplicationRequest) (s : String) :
    (∀ cfgs, req.inbound_auth_config = some cfgs → countOAuth2 cfgs = 1 →
      ∀ i, ∀ hi : i < cfgs.length, cfgs[i].type = "oauth2" →
        injectSecret req s =
          { req with
            inbound_auth_config := some (cfgs.set i (overwriteSecret cfgs[i] s)) }) ∧
    ((req.inbound_auth_config = none ∨
        ∃ cfgs, req.inbound_auth_config = some cfgs ∧ countOAuth2 cfgs = 0) →
      injectSecret req s = req) := by
  constructor
  · intro cfgs hcfgs h1 i hi ht
    have hlen : 0 < cfgs.length := Nat.lt_of_le_of_lt (Nat.zero_le i) hi
    rw [injectSecret]
    rw [hcfgs]
    simp only [hlen, if_pos]
    rw [setSecretFirst_of_countOAuth2_one s cfgs i hi ht h1]
  · rintro (hnone | ⟨cfgs, hcfgs, h0⟩)
    · rw [injectSecret, hnone]
    · rw [injectSecret, hcfgs]
      by_cases hlen : 0 < cfgs.length
      · simp only [hlen, if_pos]
        rw [setSecretFirst_of_countOAuth2_zero s cfgs h0]
        cases req
        simp_all
      · simp [hlen]

/-- A concrete "oauth2" inbound auth entry for witnesses. -/
def oauthEntryEx : InboundAuthConfig :=
  { type := "oauth2"
    config := { client_id := "x", client_secret := "old", extraConfig := [] } }

/-- A concrete update request holding exactly one "oauth2" entry. -/
def reqEx : CreateApplicationRequest :=
  { name := "app"
    description := "d"
    inbound_auth_config := some [oauthEntryEx]
    extra := [] }

/-- Witness for `injectSecret_correct` at a concrete one-entry request. -/
theorem injectSecret_correct_witness :
    injectSecret reqEx "NEW" =
      { reqEx with
        inbound_auth_config := some [overwriteSecret oauthEntryEx "NEW"] } := by
  have h := (injectSecret_correct reqEx "NEW").1 [oauthEntryEx] rfl (by decide)
    0 (by decide) (by decide)
  simpa using h

/-- C5: for every well-formed application record, the key/value view of
`toUpdateRequest`'s output contains none of the keys `id`, `created_at`,
`updated_at`, and for every other key it holds exactly the entries the
input record holds. -/
theorem toUpdateRequest_correct (a : Application) (hwf : a.wf) :
    (∀ k v, k ∈ serverGeneratedKeys → (k, v) ∉ (toUpdateRequest a).toFields) ∧
    (∀ k v, k ∉ serverGeneratedKeys →
      ((k, v) ∈ a.toFields ↔ (k, v) ∈ (toUpdateRequest a).toFields)) := by
  constructor
  · intro k v hk hmem
    simp only [serverGeneratedKeys, List.mem_cons, List.mem_singleton,
      List.not_mem_nil, or_false] at hk
    simp only [CreateApplicationRequest.toFields, toUpdateRequest,
      List.mem_append, List.mem_cons, List.mem_map, List.not_mem_nil,
      or_false, Prod.mk.injEq] at hmem
    rcases hk with rfl | rfl | rfl <;>
    rcases hmem with (⟨h1, -⟩ | ⟨h1, -⟩ | ⟨h1, -⟩) | ⟨kv, hkv, h1, -⟩ <;>
    first
      | exact absurd h1 (by decide)
      | (have hw := hwf kv hkv; rw [h1] at hw; exact hw (by decide))
  · intro k v hk
    simp only [serverGeneratedKeys, List.mem_cons, List.mem_singleton,
      List.not_mem_nil, or_false, not_or] at hk
    obtain ⟨hk1, hk2, hk3⟩ := hk
    simp only [Application.toFields, CreateApplicationRequest.toFields,
      toUpdateRequest, List.mem_append, List.mem_cons, List.mem_map,
      List.not_mem_nil, or_false, Prod.mk.injEq]
    constructor
    · rintro ((⟨rfl, rfl⟩ | ⟨rfl, rfl⟩ | ⟨rfl, rfl⟩ | ⟨rfl, rfl⟩ |
        ⟨rfl, rfl⟩ | ⟨rfl, rfl⟩) | h)
      · exact absurd rfl hk1
      · exact absurd rfl hk2
      · exact absurd rfl hk3
      · exact Or.inl (Or.inl ⟨rfl, rfl⟩)
      · exact Or.inl (Or.inr (Or.inl ⟨rfl, rfl⟩))
      · exact Or.inl (Or.inr (Or.inr ⟨rfl, rfl⟩))
      · exact Or.inr h
    · rintro ((⟨rfl, rfl⟩ | ⟨rfl, rfl⟩ | ⟨rfl, rfl⟩) | h)
      · exact Or.inl (Or.inr (Or.inr (Or.inr (Or.inl ⟨rfl, rfl⟩))))
      · exact Or.inl (Or.inr (Or.inr (Or.inr (Or.inr (Or.inl ⟨rfl, rfl⟩)))))
      · exact Or.inl (Or.inr (Or.inr (Or.inr (Or.inr (Or.inr ⟨rfl, rfl⟩)))))
      · exact Or.inr h

/-- A concrete well-formed application record for witnesses. -/
def appEx : Application :=
  { id := "a1"
    created_at := "t0"
    updated_at := "t1"
    name := "app"
    description := "d"
    inbound_auth_config := some [oauthEntryEx]
    extra := [("logo_url", "l")] }

/-- The concrete record `appEx` is well-formed. -/
theorem appEx_wf : appEx.wf := by
  intro kv hkv
  simp only [appEx] at hkv
  simp at hkv
  subst hkv
  decide

/-- Witness for `toUpdateRequest_correct` at a concrete record. -/
theorem toUpdateRequest_correct_witness :
    ("id", FieldValue.str "a1") ∉ (toUpdateRequest appEx).toFields ∧
    (("logo_url", FieldValue.str "l") ∈ appEx.toFields ↔
      ("logo_url", FieldValue.str "l") ∈ (toUpdateRequest appEx).toFields) :=
  ⟨(toUpdateRequest_correct appEx appEx_wf).1 "id" (FieldValue.str "a1")
      (by decide),
   (toUpdateRequest_correct appEx appEx_wf).2 "logo_url" (FieldValue.str "l")
      (by decide)⟩

/-- C2: when the initial GET fails, the workflow aborts at once: the result
is the raw error value unchanged, the request log holds only the GET, and
in particular no PUT is ever dispatched. -/
theorem revoke_get_failure_aborts (http : HttpOracle) (rand : Nat → Fin 62)
    (serverUrl applicationId : String) (e : String)
    (hget : http.getResult = Except.error e) :
    mutationFn http rand serverUrl applicationId =
      (Except.error e,
        [⟨HttpMethod.GET, serverUrl ++ "/applications/" ++ applicationId,
          none⟩]) ∧
    ∀ d ∈ (mutationFn http rand serverUrl applicationId).2,
      d.method ≠ HttpMethod.PUT := by
  have h : mutationFn http rand serverUrl applicationId =
      (Except.error e,
        [⟨HttpMethod.GET, serverUrl ++ "/applications/" ++ applicationId,
          none⟩]) := by
    rw [mutationFn, hget]
  refine ⟨h, ?_⟩
  rw [h]
  intro d hd
  simp only [List.mem_singleton] at hd
  subst hd
  simp

/-- A concrete randomness oracle for witnesses. -/
def randEx : Nat → Fin 62 := fun i => ⟨i % 62, Nat.mod_lt i (by decide)⟩

/-- A concrete failing-GET oracle for witnesses. -/
def httpGetFailEx : HttpOracle :=
  { getResult := Except.error "network down"
    putResult := fun _ => Except.error "unreachable" }

/-- Witness for `revoke_get_failure_aborts` at a concrete failing oracle. -/
theorem revoke_get_failure_aborts_witness :
    mutationFn httpGetFailEx randEx "https://s" "a1" =
      (Except.error "network down",
        [⟨HttpMethod.GET, "https://s" ++ "/applications/" ++ "a1", none⟩]) ∧
    ∀ d ∈ (mutationFn httpGetFailEx randEx "https://s" "a1").2,
      d.method ≠ HttpMethod.PUT :=
  revoke_get_failure_aborts httpGetFailEx randEx "https://s" "a1"
    "network down" rfl

/-- C1: in every successful run (GET ok, then PUT ok) against an application
holding an "oauth2" inbound config, the returned `clientSecret` is exactly
the generator's output, the PUT body carries that same secret in its
"oauth2" entry, and the result is assembled from the generated secret — the
PUT response only supplies the `application` component, never the secret. -/
theorem revoke_success_secret (http : HttpOracle) (rand : Nat → Fin 62)
    (serverUrl applicationId : String) (app : Application)
    (cfgs : List InboundAuthConfig) (r : RevokeApplicationResult)
    (log : List DispatchedRequest)
    (hget : http.getResult = Except.ok app)
    (hcfgs : app.inbound_auth_config = some cfgs)
    (hoauth : countOAuth2 cfgs ≠ 0)
    (hrun : mutationFn http rand serverUrl applicationId = (Except.ok r, log)) :
    r.clientSecret = generateClientSecret rand ∧
    ∃ body,
      log =
        [⟨HttpMethod.GET, serverUrl ++ "/applications/" ++ applicationId,
          none⟩,
         ⟨HttpMethod.PUT, serverUrl ++ "/applications/" ++ applicationId,
          some body⟩] ∧
      firstOAuth2Secret body = some (generateClientSecret rand) := by
  simp only [mutationFn, hget] at hrun
  cases hput : http.putResult
      (injectSecret (toUpdateRequest app) (generateClientSecret rand)) with
  | error e =>
    rw [hput] at hrun
    simp at hrun
  | ok updated =>
    rw [hput] at hrun
    simp only [Prod.mk.injEq, Except.ok.injEq] at hrun
    obtain ⟨hr, hlog⟩ := hrun
    subst hr
    have hlen : 0 < cfgs.length := by
      cases cfgs with
      | nil => simp [countOAuth2] at hoauth
      | cons c cs => simp
    have hreq : (toUpdateRequest app).inbound_auth_config = some cfgs := by
      simp [toUpdateRequest, hcfgs]
    refine ⟨rfl,
      injectSecret (toUpdateRequest app) (generateClientSecret rand),
      hlog.symm, ?_⟩
    simp only [injectSecret, hreq, hlen, if_true, firstOAuth2Secret]
    exact listFirstOAuth2Secret_setSecretFirst _ _ hoauth

/-- A concrete all-success oracle for witnesses. -/
def httpOkEx : HttpOracle :=
  { getResult := Except.ok appEx
    putResult := fun _ => Except.ok appEx }

/-- Witness for `revoke_success_secret` at a concrete successful run. -/
theorem revoke_success_secret_witness :
    (RevokeApplicationResult.mk appEx
        (generateClientSecret randEx)).clientSecret
      = generateClientSecret randEx ∧
    ∃ body,
      [⟨HttpMethod.GET, "https://s" ++ "/applications/" ++ "a1", none⟩,
       ⟨HttpMethod.PUT, "https://s" ++ "/applications/" ++ "a1",
        some (injectSecret (toUpdateRequest appEx)
          (generateClientSecret randEx))⟩] =
        ([⟨HttpMethod.GET, "https://s" ++ "/applications/" ++ "a1", none⟩,
          ⟨HttpMethod.PUT, "https://s" ++ "/applications/" ++ "a1",
           some body⟩] : List DispatchedRequest) ∧
      firstOAuth2Secret body = some (generateClientSecret randEx) :=
  revoke_success_secret httpOkEx randEx "https://s" "a1" appEx [oauthEntryEx]
    (RevokeApplicationResult.mk appEx (generateClientSecret randEx))
    [⟨HttpMethod.GET, "https://s" ++ "/applications/" ++ "a1", none⟩,
     ⟨HttpMethod.PUT, "https://s" ++ "/applications/" ++ "a1",
      some (injectSecret (toUpdateRequest appEx)
        (generateClientSecret randEx))⟩]
    rfl rfl (by decide) rfl

/-- C3: after a successful revoke the `onSuccess` handler issues exactly two
invalidation calls, the per-id key `("application", id)` and the collection
key `("applications")`, each exactly once; after a failed revoke it issues
none; and the workflow outcome is the same whatever the invalidation
facility does with those calls, so a cache failure never surfaces. -/
theorem revoke_invalidation_policy (http : HttpOracle)
    (cache cache2 : List String → Except String Unit) (rand : Nat → Fin 62)
    (serverUrl applicationId : String) :
    ((∃ r, (runRevoke http cache rand serverUrl applicationId).1
        = Except.ok r) →
      (runRevoke http cache rand serverUrl applicationId).2.2 =
        [[queryKeyApplication, applicationId], [queryKeyApplications]] ∧
      ((runRevoke http cache rand serverUrl applicationId).2.2).count
        [queryKeyApplication, applicationId] = 1 ∧
      ((runRevoke http cache rand serverUrl applicationId).2.2).count
        [queryKeyApplications] = 1) ∧
    ((∃ e, (runRevoke http cache rand serverUrl applicationId).1
        = Except.error e) →
      (runRevoke http cache rand serverUrl applicationId).2.2 = []) ∧
    (runRevoke http cache rand serverUrl applicationId).1 =
      (runRevoke http cache2 rand serverUrl applicationId).1 := by
  rw [runRevoke, runRevoke]
  rcases h : mutationFn http rand serverUrl applicationId with ⟨res, reqs⟩
  cases res with
  | ok r =>
    refine ⟨fun _ => ⟨rfl, ?_, ?_⟩, fun he => ?_, rfl⟩
    · simp [List.count_cons, queryKeyApplication, queryKeyApplications]
    · simp [List.count_cons, queryKeyApplication, queryKeyApplications]
    · obtain ⟨e, he⟩ := he
      simp at he
  | error e =>
    refine ⟨fun hr => ?_, fun _ => rfl, rfl⟩
    obtain ⟨r, hr⟩ := hr
    simp at hr

/-- A concrete always-failing invalidation facility for witnesses. -/
def cacheFailEx : List String → Except String Unit :=
  fun _ => Except.error "cache down"

/-- A concrete always-succeeding invalidation facility for witnesses. -/
def cacheOkEx : List String → Except String Unit :=
  fun _ => Except.ok ()

/-- Witness for `revoke_invalidation_policy`: a successful run against a
failing cache still issues both invalidations exactly once. -/
theorem revoke_invalidation_policy_witness :
    (runRevoke httpOkEx cacheFailEx randEx "https://s" "a1").2.2 =
      [[queryKeyApplication, "a1"], [queryKeyApplications]] ∧
    ((runRevoke httpOkEx cacheFailEx randEx "https://s" "a1").2.2).count
      [queryKeyApplication, "a1"] = 1 ∧
    ((runRevoke httpOkEx cacheFailEx randEx "https://s" "a1").2.2).count
      [queryKeyApplications] = 1 :=
  (revoke_invalidation_policy httpOkEx cacheFailEx cacheOkEx randEx
      "https://s" "a1").1
    ⟨RevokeApplicationResult.mk appEx (generateClientSecret randEx), rfl⟩

/-- C6: every string the secret generator returns has length exactly 32 and
only characters in `[A-Za-z0-9]`; consequently the secret of every
successful revoke has length 32 over that alphabet. -/
theorem generateClientSecret_spec (rand : Nat → Fin 62) :
    (generateClientSecret rand).length = 32 ∧
    (∀ c ∈ (generateClientSecret rand).toList,
      ('A' ≤ c ∧ c ≤ 'Z') ∨ ('a' ≤ c ∧ c ≤ 'z') ∨ ('0' ≤ c ∧ c ≤ '9')) ∧
    (∀ (http : HttpOracle) (serverUrl applicationId : String)
        (r : RevokeApplicationResult) (log : List DispatchedRequest),
      mutationFn http rand serverUrl applicationId = (Except.ok r, log) →
      r.clientSecret.length = 32 ∧
      ∀ c ∈ r.clientSecret.toList,
        ('A' ≤ c ∧ c ≤ 'Z') ∨ ('a' ≤ c ∧ c ≤ 'z') ∨ ('0' ≤ c ∧ c ≤ '9')) := by
  have hlen : (generateClientSecret rand).length = 32 := by
    have h : ((List.range 32).map
        (fun i => charsList.getD (rand i).val 'A')).length = 32 := by simp
    exact h
  have hmem : ∀ c ∈ (generateClientSecret rand).toList,
      ('A' ≤ c ∧ c ≤ 'Z') ∨ ('a' ≤ c ∧ c ≤ 'z') ∨ ('0' ≤ c ∧ c ≤ '9') := by
    intro c hc
    have hall : ∀ c ∈ charsList,
        ('A' ≤ c ∧ c ≤ 'Z') ∨ ('a' ≤ c ∧ c ≤ 'z') ∨ ('0' ≤ c ∧ c ≤ '9') := by
      decide
    have hc2 : c ∈ (List.range 32).map
        (fun i => charsList.getD (rand i).val 'A') := hc
    simp only [List.mem_map, List.mem_range] at hc2
    obtain ⟨i, -, hi⟩ := hc2
    have hlt : (rand i).val < charsList.length := by
      have h62 : charsList.length = 62 := by rfl
      rw [h62]
      exact (rand i).isLt
    rw [List.getD_eq_getElem charsList 'A' hlt] at hi
    exact hi ▸ hall _ (List.getElem_mem hlt)
  refine ⟨hlen, hmem, ?_⟩
  intro http serverUrl applicationId r log hrun
  cases hget : http.getResult with
  | error e =>
    simp only [mutationFn, hget] at hrun
    simp at hrun
  | ok app =>
    simp only [mutationFn, hget] at hrun
    cases hput : http.putResult
        (injectSecret (toUpdateRequest app) (generateClientSecret rand)) with
    | error e =>
      rw [hput] at hrun
      simp at hrun
    | ok updated =>
      rw [hput] at hrun
      simp only [Prod.mk.injEq, Except.ok.injEq] at hrun
      obtain ⟨hr, -⟩ := hrun
      subst hr
      exact ⟨hlen, hmem⟩

/-- Witness for `generateClientSecret_spec` at a concrete successful run. -/
theorem generateClientSecret_spec_witness :
    (RevokeApplicationResult.mk appEx
        (generateClientSecret randEx)).clientSecret.length = 32 ∧
    ∀ c ∈ (RevokeApplicationResult.mk appEx
        (generateClientSecret randEx)).clientSecret.toList,
      ('A' ≤ c ∧ c ≤ 'Z') ∨ ('a' ≤ c ∧ c ≤ 'z') ∨ ('0' ≤ c ∧ c ≤ '9') :=
  (generateClientSecret_spec randEx).2.2 httpOkEx "https://s" "a1"
    (RevokeApplicationResult.mk appEx (generateClientSecret randEx))
    [⟨HttpMethod.GET, "https://s" ++ "/applications/" ++ "a1", none⟩,
     ⟨HttpMethod.PUT, "https://s" ++ "/applications/" ++ "a1",
      some (injectSecret (toUpdateRequest appEx)
        (generateClientSecret randEx))⟩]
    rfl

/-- C7 counterexample: open, confirm, dismiss mid-Pending (backdrop or
Escape runs `handleCancel` even while revoking), then let the in-flight
call fail.  The failure handler stores the message although the dialog is
closed, and the following reopen transition (`open` false to true) shows a
non-empty error: nothing in the component resets the message on opening. -/
theorem revoke_dialog_reopen_stale_error_cex :
    ((revokeRun (some "a1") revokeInit
        [RevokeDialogEvent.openDialog, RevokeDialogEvent.confirm,
         RevokeDialogEvent.cancel,
         RevokeDialogEvent.complete false "boom"]).isOpen = false) ∧
    ((revokeRun (some "a1") revokeInit
        [RevokeDialogEvent.openDialog, RevokeDialogEvent.confirm,
         RevokeDialogEvent.cancel,
         RevokeDialogEvent.complete false "boom"]).error = some "boom") ∧
    ((revokeStep (some "a1")
        (revokeRun (some "a1") revokeInit
          [RevokeDialogEvent.openDialog, RevokeDialogEvent.confirm,
           RevokeDialogEvent.cancel,
           RevokeDialogEvent.complete false "boom"])
        RevokeDialogEvent.openDialog).isOpen = true) ∧
    ((revokeStep (some "a1")
        (revokeRun (some "a1") revokeInit
          [RevokeDialogEvent.openDialog, RevokeDialogEvent.confirm,
           RevokeDialogEvent.cancel,
           RevokeDialogEvent.complete false "boom"])
        RevokeDialogEvent.openDialog).error = some "boom") := by
  refine ⟨rfl, rfl, rfl, rfl⟩

theorem revokeStep_error_none (applicationId : Option String)
    (s : RevokeDialogState) (e : RevokeDialogEvent)
    (hs : s.error = none) (he : e.isFailureCompletion = false) :
    (revokeStep applicationId s e).error = none := by
  cases e with
  | openDialog => simpa [revokeStep] using hs
  | cancel =>
    by_cases h : s.isOpen <;> simp [revokeStep, h, hs]
  | confirm =>
    cases applicationId <;>
      (rw [revokeStep]; split <;> simp [hs])
  | complete success payload =>
    cases success with
    | true => by_cases h : s.pending <;> simp [revokeStep, h, hs]
    | false => simp [RevokeDialogEvent.isFailureCompletion] at he

/-- C7 amended: the open transition itself never changes the error state,
and in every history that starts with a clear error and contains no
workflow-failure completion the error stays empty — so a reopen shows an
empty message exactly when no failure completed since the error was last
cleared; a failure landing after a mid-Pending dismissal persists and is
rendered on reopen (see the counterexample). -/
theorem revoke_dialog_reopen_error_empty (applicationId : Option String) :
    (∀ s : RevokeDialogState,
      (revokeStep applicationId s RevokeDialogEvent.openDialog).error
        = s.error) ∧
    (∀ (s : RevokeDialogState) (es : List RevokeDialogEvent),
      s.error = none →
      (∀ e ∈ es, e.isFailureCompletion = false) →
      (revokeRun applicationId s es).error = none) := by
  constructor
  · intro s
    rfl
  · intro s es
    induction es generalizing s with
    | nil =>
      intro hs _
      simpa [revokeRun] using hs
    | cons e es ih =>
      intro hs hne
      rw [revokeRun]
      exact ih _
        (revokeStep_error_none applicationId s e hs
          (hne e (List.mem_cons_self e es)))
        (fun x hx => hne x (List.mem_cons_of_mem e hx))

/-- Witness for `revoke_dialog_reopen_error_empty`: a full successful cycle
followed by a reopen leaves the error empty. -/
theorem revoke_dialog_reopen_error_empty_witness :
    (revokeRun (some "a1") revokeInit
      [RevokeDialogEvent.openDialog, RevokeDialogEvent.confirm,
       RevokeDialogEvent.complete true "sec",
       RevokeDialogEvent.openDialog]).error = none :=
  (revoke_dialog_reopen_error_empty (some "a1")).2 revokeInit
    [RevokeDialogEvent.openDialog, RevokeDialogEvent.confirm,
     RevokeDialogEvent.complete true "sec", RevokeDialogEvent.openDialog]
    rfl (by decide)

/-- C8 counterexample: dismiss the dialog mid-Pending, then let the
in-flight call fail.  The dialog state does react to the completion: the
failure message is stored in the dialog's error state and `onError` fires
after dismissal, so the completion has dialog-side effects beyond merely
finishing the request. -/
theorem revoke_dialog_dismiss_midflight_cex :
    ((revokeRun (some "a1") revokeInit
        [RevokeDialogEvent.openDialog, RevokeDialogEvent.confirm,
         RevokeDialogEvent.cancel]).isOpen = false) ∧
    ((revokeRun (some "a1") revokeInit
        [RevokeDialogEvent.openDialog, RevokeDialogEvent.confirm,
         RevokeDialogEvent.cancel]).pending = true) ∧
    ((revokeRun (some "a1") revokeInit
        [RevokeDialogEvent.openDialog, RevokeDialogEvent.confirm,
         RevokeDialogEvent.cancel]).error = none) ∧
    ((revokeStep (some "a1")
        (revokeRun (some "a1") revokeInit
          [RevokeDialogEvent.openDialog, RevokeDialogEvent.confirm,
           RevokeDialogEvent.cancel])
        (RevokeDialogEvent.complete false "down")).error = some "down") ∧
    ((revokeStep (some "a1")
        (revokeRun (some "a1") revokeInit
          [RevokeDialogEvent.openDialog, RevokeDialogEvent.confirm,
           RevokeDialogEvent.cancel])
        (RevokeDialogEvent.complete false "down")).emittedErrors
      = ["down"]) := by
  refine ⟨rfl, rfl, rfl, rfl, rfl⟩

/-- C8 amended: closing the dialog mid-Pending does not detach the handler;
when the in-flight call completes, the dialog still reacts: a failure
stores its message in the dialog's error state and emits `onError`, a
success closes and emits the secret through `onSuccess` — only the request
itself is unaffected by the dismissal. -/
theorem revoke_dialog_dismiss_midflight_behavior (applicationId : Option String)
    (s : RevokeDialogState) (msg secret : String)
    (hclosed : s.isOpen = false) (hpending : s.pending = true) :
    ((revokeStep applicationId s (RevokeDialogEvent.complete false msg)).error
        = some msg ∧
      (revokeStep applicationId s
        (RevokeDialogEvent.complete false msg)).emittedErrors
        = s.emittedErrors ++ [msg] ∧
      (revokeStep applicationId s
        (RevokeDialogEvent.complete false msg)).pending = false) ∧
    ((revokeStep applicationId s
        (RevokeDialogEvent.complete true secret)).emittedSuccess
        = s.emittedSuccess ++ [secret] ∧
      (revokeStep applicationId s
        (RevokeDialogEvent.complete true secret)).isOpen = false ∧
      (revokeStep applicationId s
        (RevokeDialogEvent.complete true secret)).pending = false) := by
  rw [revokeStep, revokeStep]
  simp [hpending]

/-- Witness for `revoke_dialog_dismiss_midflight_behavior` at the concrete
dismissed-mid-Pending state. -/
theorem revoke_dialog_dismiss_midflight_behavior_witness :
    ((revokeStep (some "a1")
        (revokeRun (some "a1") revokeInit
          [RevokeDialogEvent.openDialog, RevokeDialogEvent.confirm,
           RevokeDialogEvent.cancel])
        (RevokeDialogEvent.complete false "err")).error = some "err" ∧
      (revokeStep (some "a1")
        (revokeRun (some "a1") revokeInit
          [RevokeDialogEvent.openDialog, RevokeDialogEvent.confirm,
           RevokeDialogEvent.cancel])
        (RevokeDialogEvent.complete false "err")).emittedErrors
        = (revokeRun (some "a1") revokeInit
            [RevokeDialogEvent.openDialog, RevokeDialogEvent.confirm,
             RevokeDialogEvent.cancel]).emittedErrors ++ ["err"] ∧
      (revokeStep (some "a1")
        (revokeRun (some "a1") revokeInit
          [RevokeDialogEvent.openDialog, RevokeDialogEvent.confirm,
           RevokeDialogEvent.cancel])
        (RevokeDialogEvent.complete false "err")).pending = false) ∧
    ((revokeStep (some "a1")
        (revokeRun (some "a1") revokeInit
          [RevokeDialogEvent.openDialog, RevokeDialogEvent.confirm,
           RevokeDialogEvent.cancel])
        (RevokeDialogEvent.complete true "s3cr3t")).emittedSuccess
        = (revokeRun (some "a1") revokeInit
            [RevokeDialogEvent.openDialog, RevokeDialogEvent.confirm,
             RevokeDialogEvent.cancel]).emittedSuccess ++ ["s3cr3t"] ∧
      (revokeStep (some "a1")
        (revokeRun (some "a1") revokeInit
          [RevokeDialogEvent.openDialog, RevokeDialogEvent.confirm,
           RevokeDialogEvent.cancel])
        (RevokeDialogEvent.complete true "s3cr3t")).isOpen = false ∧
      (revokeStep (some "a1")
        (revokeRun (some "a1") revokeInit
          [RevokeDialogEvent.openDialog, RevokeDialogEvent.confirm,
           RevokeDialogEvent.cancel])
        (RevokeDialogEvent.complete true "s3cr3t")).pending = false) :=
  revoke_dialog_dismiss_midflight_behavior (some "a1")
    (revokeRun (some "a1") revokeInit
      [RevokeDialogEvent.openDialog, RevokeDialogEvent.confirm,
       RevokeDialogEvent.cancel])
    "err" "s3cr3t" rfl rfl

/-- C9: the close action of the secret disclosure dialog resets the reveal
state and the copy-confirmation state to their initial values, closes, and
discards the caller's stored secret; hence after Reveal then Close then
Reopen with a new secret, the dialog is open, renders masked, and holds
exactly the new secret. -/
theorem secret_dialog_close_resets (s : SecretDialogState) (newSecret : String)
    (hopen : s.isOpen = true) :
    ((secretStep s SecretDialogEvent.close).copied = false ∧
      (secretStep s SecretDialogEvent.close).showSecret = false ∧
      (secretStep s SecretDialogEvent.close).isOpen = false ∧
      (secretStep s SecretDialogEvent.close).storedSecret = "") ∧
    ((secretStep (secretStep
        (secretStep s SecretDialogEvent.toggleVisibility)
        SecretDialogEvent.close) (SecretDialogEvent.reopen newSecret)).showSecret
        = false ∧
      (secretStep (secretStep
        (secretStep s SecretDialogEvent.toggleVisibility)
        SecretDialogEvent.close) (SecretDialogEvent.reopen newSecret)).copied
        = false ∧
      (secretStep (secretStep
        (secretStep s SecretDialogEvent.toggleVisibility)
        SecretDialogEvent.close) (SecretDialogEvent.reopen newSecret)).storedSecret
        = newSecret ∧
      (secretStep (secretStep
        (secretStep s SecretDialogEvent.toggleVisibility)
        SecretDialogEvent.close) (SecretDialogEvent.reopen newSecret)).isOpen
        = true) := by
  simp [secretStep, hopen]

/-- Witness for `secret_dialog_close_resets` at a concrete revealed,
copy-confirmed open state. -/
theorem secret_dialog_close_resets_witness :
    ((secretStep
        (SecretDialogState.mk true true true "old-secret")
        SecretDialogEvent.close).copied = false ∧
      (secretStep (SecretDialogState.mk true true true "old-secret")
        SecretDialogEvent.close).showSecret = false ∧
      (secretStep (SecretDialogState.mk true true true "old-secret")
        SecretDialogEvent.close).isOpen = false ∧
      (secretStep (SecretDialogState.mk true true true "old-secret")
        SecretDialogEvent.close).storedSecret = "") ∧
    ((secretStep (secretStep
        (secretStep (SecretDialogState.mk true true true "old-secret")
          SecretDialogEvent.toggleVisibility)
        SecretDialogEvent.close)
        (SecretDialogEvent.reopen "new-secret")).showSecret = false ∧
      (secretStep (secretStep
        (secretStep (SecretDialogState.mk true true true "old-secret")
          SecretDialogEvent.toggleVisibility)
        SecretDialogEvent.close)
        (SecretDialogEvent.reopen "new-secret")).copied = false ∧
      (secretStep (secretStep
        (secretStep (SecretDialogState.mk true true true "old-secret")
          SecretDialogEvent.toggleVisibility)
        SecretDialogEvent.close)
        (SecretDialogEvent.reopen "new-secret")).storedSecret = "new-secret" ∧
      (secretStep (secretStep
        (secretStep (SecretDialogState.mk true true true "old-secret")
          SecretDialogEvent.toggleVisibility)
        SecretDialogEvent.close)
        (SecretDialogEvent.reopen "new-secret")).isOpen = true) :=
  secret_dialog_close_resets (SecretDialogState.mk true true true "old-secret")
    "new-secret" rfl

/-- C10 (implicit): the spread in `toUpdateRequest` copies only the
top-level record, so the update request and the fetched record hold the
same inbound-auth references; the in-place injection therefore also mutates
the fetched record: reading its "oauth2" entry's config through the heap
after injection yields the new secret, no longer the value the server
returned on the GET. -/
theorem toUpdateRequestH_shallow_aliasing (heap : ConfigHeap)
    (app : HApplication) (s : String)
    (cfgs : List HInboundAuthConfig) (c : HInboundAuthConfig)
    (hcfgs : app.inbound_auth_config = some cfgs)
    (hfind : cfgs.find? (fun x => x.type == "oauth2") = some c)
    (href : c.configRef < heap.length) :
    (toUpdateRequestH app).inbound_auth_config = app.inbound_auth_config ∧
    ((injectSecretH heap (toUpdateRequestH app) s)[c.configRef]?).map
        (fun cfg => cfg.client_secret) = some s ∧
    ∀ old, heap[c.configRef]? = some old → s ≠ old.client_secret →
      ((injectSecretH heap (toUpdateRequestH app) s)[c.configRef]?).map
          (fun cfg => cfg.client_secret) ≠ some old.client_secret := by
  have hlen : 0 < cfgs.length := by
    cases cfgs with
    | nil => simp at hfind
    | cons a l => simp
  have hmain : injectSecretH heap (toUpdateRequestH app) s =
      heap.set c.configRef
        { heap[c.configRef] with client_secret := s } := by
    simp only [injectSecretH, toUpdateRequestH, hcfgs, hlen, if_true, hfind]
    rw [List.get?_eq_getElem?, List.getElem?_eq_getElem href]
  have hlen2 : c.configRef <
      (heap.set c.configRef
        { heap[c.configRef] with client_secret := s }).length := by
    simpa using href
  have h2 : ((injectSecretH heap (toUpdateRequestH app) s)[c.configRef]?).map
      (fun cfg => cfg.client_secret) = some s := by
    rw [hmain, List.getElem?_set_self', List.getElem?_eq_getElem href]
    simp
  refine ⟨rfl, h2, ?_⟩
  intro old hold hneq
  rw [h2]
  simpa using hneq

/-- A concrete heap-model application whose single "oauth2" entry points at
heap cell 0. -/
def hAppEx : HApplication :=
  { id := "a1"
    created_at := "t0"
    updated_at := "t1"
    name := "app"
    description := "d"
    inbound_auth_config := some [HInboundAuthConfig.mk "oauth2" 0]
    extra := [] }

/-- A concrete one-cell heap holding the server-returned config. -/
def heapEx : ConfigHeap :=
  [{ client_id := "x", client_secret := "old", extraConfig := [] }]

/-- Witness for `toUpdateRequestH_shallow_aliasing` at the concrete heap. -/
theorem toUpdateRequestH_shallow_aliasing_witness :
    (toUpdateRequestH hAppEx).inbound_auth_config
      = hAppEx.inbound_auth_config ∧
    ((injectSecretH heapEx (toUpdateRequestH hAppEx)
        "NEW")[(HInboundAuthConfig.mk "oauth2" 0).configRef]?).map
        (fun cfg => cfg.client_secret) = some "NEW" ∧
    ∀ old,
      heapEx[(HInboundAuthConfig.mk "oauth2" 0).configRef]? = some old →
      "NEW" ≠ old.client_secret →
      ((injectSecretH heapEx (toUpdateRequestH hAppEx)
          "NEW")[(HInboundAuthConfig.mk "oauth2" 0).configRef]?).map
          (fun cfg => cfg.client_secret) ≠ some old.client_secret :=
  toUpdateRequestH_shallow_aliasing heapEx hAppEx "NEW"
    [HInboundAuthConfig.mk "oauth2" 0] (HInboundAuthConfig.mk "oauth2" 0)
    rfl (by decide) (by decide)
